import Mathlib

/-!
Verification development for the Debo repository core
(`src/agents/embeddings.py`, `src/agents/api_manager.py`,
`src/agents/orchestrator.py`, `src/agents/agent_pool.py`).

The Python source is shallowly embedded: the Redis keyspace that
`EmbeddingManager` uses becomes an explicit list of records, the
`api_keys` Redis hash becomes an association list, HTTP transport
becomes an explicit function parameter, and exceptions become `Except`
values.  Machine floats are modelled by `ℚ` for the stored data and by
`ℝ` for the cosine-similarity scores (which involve square roots); the
sort comparison performed by the source on float scores is decided by a
square-root-free rational comparator which is proved equivalent to the
real comparison whenever both scores are well defined (nonzero norms).
-/

namespace Debo

/-! ### Vector arithmetic (`numpy` calls in `similarity_search`) -/

/-- Dot product of two rational vectors, `np.dot(q, v)`.  The source
applies it to equal-length vectors (the embedding model has a fixed
output dimension); on unequal lengths `np.dot` raises, and the theorems
about search carry an equal-length hypothesis accordingly. -/
def dotQ : List ℚ → List ℚ → ℚ
  | [], _ => 0
  | _, [] => 0
  | x :: xs, y :: ys => x * y + dotQ xs ys

/-- Squared Euclidean norm of a vector: `np.linalg.norm(v) ** 2`.
Working with the square avoids irrational square roots; the real norm
is recovered as `Real.sqrt (sumsq v)`. -/
def sumsq (v : List ℚ) : ℚ := dotQ v v

/-- Sign of a rational number as a rational (`1`, `-1` or `0`). -/
def sgnq (d : ℚ) : ℚ := if 0 < d then 1 else if d < 0 then -1 else 0

/-- Comparison of two similarity scores without square roots.  A score
is `d / (‖q‖·‖v‖)` with `d` the dot product and `n = ‖v‖²` stored in
the pair `(d, n)`; the common positive factor `‖q‖` cancels, so
`d₁/√n₁ ≤ d₂/√n₂` is decided by comparing signs and then the
cross-multiplied squares.  `sLe_iff_cosSim_le` below proves this
equivalent to the real comparison when the norms are nonzero. -/
def sLe (p₁ p₂ : ℚ × ℚ) : Prop :=
  sgnq p₁.1 < sgnq p₂.1 ∨
    (sgnq p₁.1 = sgnq p₂.1 ∧ sgnq p₁.1 * p₁.1 ^ 2 * p₂.2 ≤ sgnq p₂.1 * p₂.1 ^ 2 * p₁.2)

instance (p₁ p₂ : ℚ × ℚ) : Decidable (sLe p₁ p₂) := by
  unfold sLe
  infer_instance

/-! ### The embedding store (`EmbeddingManager` over Redis) -/

/-- One stored embedding, i.e. the Redis hash at key `embeddings:{key}`
written by `EmbeddingManager.store_embedding` (`key` here is the full
Redis key, including the `embeddings:` prefix).  `insertedAt` is a
ghost sequence number recording logical insertion time; the source
stores no such field, which is exactly what claim C7 probes. -/
structure EmbRec where
  key : String
  text : String
  vec : List ℚ
  meta : List (String × String)
  insertedAt : ℕ
deriving DecidableEq, Repr

/-- Scoring key of a record for a given query embedding `q`:
the dot product together with the squared norm of the stored vector. -/
def sKey (q : List ℚ) (r : EmbRec) : ℚ × ℚ := (dotQ q r.vec, sumsq r.vec)

/-- Boolean form of the score comparison on records:
`simLeB q a b` decides `score a ≤ score b` for query embedding `q`. -/
def simLeB (q : List ℚ) (a b : EmbRec) : Bool := decide (sLe (sKey q a) (sKey q b))

/-- The cosine similarity the source computes for a record:
`np.dot(q, v) / (np.linalg.norm(q) * np.linalg.norm(v))`. -/
noncomputable def cosSim (q v : List ℚ) : ℝ :=
  (dotQ q v : ℝ) / (Real.sqrt (sumsq q) * Real.sqrt (sumsq v))

/-- Redis key written by `store_embedding(key, ...)`:
`f"embeddings:{key}"`. -/
def redisKey (k : String) : String := "embeddings:" ++ k

/-- Match of a full Redis key against the glob pattern
`f"embeddings:{namespace}:*"` used by `similarity_search` (`*` matches
any, possibly empty, suffix; namespaces are assumed free of glob
metacharacters, as in all callers). -/
def nsMatch (ns key : String) : Bool := ("embeddings:" ++ ns ++ ":").data.isPrefixOf key.data

/-- The model of the keyspace scanned by `similarity_search`: the list
order is the (unspecified) enumeration order in which `redis.keys`
returns the matching keys, not necessarily insertion order. -/
abbrev KeySpace := List EmbRec

/-- Upsert of a record into the keyspace, the effect of
`redis.hset(f"embeddings:{key}", mapping=data)`: an existing hash at
the same key is overwritten in place, a new key is appended. -/
def hsetRec (st : KeySpace) (r : EmbRec) : KeySpace :=
  if st.any (fun x => x.key = r.key) then
    st.map (fun x => if x.key = r.key then r else x)
  else st ++ [r]

/-- Model of `EmbeddingManager.store_embedding(key, text, metadata)`:
computes the embedding of `text` with the external embedding function
`embed` and writes the hash at `embeddings:{key}` unconditionally.  The
source performs no dimension validation and raises nothing (claim C2),
so the model is a total function on the keyspace.  `now` is the ghost
insertion sequence number. -/
def storeEmbedding (embed : String → List ℚ) (st : KeySpace)
    (key text : String) (meta : List (String × String)) (now : ℕ) : KeySpace :=
  hsetRec st ⟨redisKey key, text, embed text, meta, now⟩

/-- Python list slicing `l[:k]` for an `int` k: a nonnegative `k` keeps
the first `k` elements, a negative `k` drops the last `|k|`. -/
def pySliceTo (l : List α) (k : ℤ) : List α :=
  if 0 ≤ k then l.take k.toNat else l.take (l.length - (-k).toNat)

/-- Records of the keyspace whose key matches the namespace glob, in
enumeration order: the loop body source of `similarity_search`. -/
def matchedRecs (st : KeySpace) (ns : String) : List EmbRec :=
  st.filter (fun r => nsMatch ns r.key)

/-- Lookup of the record stored at a full Redis key, i.e.
`redis.hgetall(key)` restricted to the embedding keyspace. -/
def findRec (st : KeySpace) (k : String) : Option EmbRec :=
  st.find? (fun r => r.key = k)

/-- Model of `EmbeddingManager.similarity_search(query, namespace,
top_k)`: embeds the query, collects all records matching
`embeddings:{namespace}:*`, sorts them by similarity in non-increasing
order (`results.sort(key=..., reverse=True)` — a stable descending
sort, modelled by the stable `List.mergeSort`; the two agree on any
input whose scores are all well defined, i.e. NaN-free) and returns the
Python slice `results[:top_k]`.  The returned records carry the same
`key`, `text` and `metadata` fields as the source's result dicts; the
`similarity` value of a returned record `r` is `cosSim (embed query)
r.vec`. -/
def similaritySearch (embed : String → List ℚ) (st : KeySpace)
    (query ns : String) (topK : ℤ) : List EmbRec :=
  let q := embed query
  pySliceTo ((matchedRecs st ns).mergeSort (fun a b => simLeB q b a)) topK

/-! ### Provider routing (`ApiManager`, `OllamaClient`, `Orchestrator`) -/

/-- Minimal JSON values, enough for the response shapes the adapters
parse (`response.json()` results). -/
inductive Json where
  | str (s : String)
  | num (q : ℚ)
  | arr (xs : List Json)
  | obj (fields : List (String × Json))
  | null

/-- Python exception kinds the provider code can surface: a `requests`
transport exception, a `dict` `KeyError`, a `list` `IndexError`, and a
`TypeError`/`AttributeError` from subscripting a non-container. -/
inductive PyErr where
  | transport (msg : String)
  | keyError (field : String)
  | indexError (i : ℕ)
  | typeError
deriving DecidableEq, Repr

/-- Python `d[k]` on a parsed JSON value: raises `KeyError` when the
field is absent, `TypeError` when the value is not an object. -/
def jField (j : Json) (k : String) : Except PyErr Json :=
  match j with
  | .obj fs =>
    match fs.lookup k with
    | some v => .ok v
    | none => .error (.keyError k)
  | _ => .error .typeError

/-- Python `l[i]` on a parsed JSON value: raises `IndexError` when the
index is out of range, `TypeError` when the value is not an array. -/
def jAt (j : Json) (i : ℕ) : Except PyErr Json :=
  match j with
  | .arr xs =>
    match xs.get? i with
    | some v => .ok v
    | none => .error (.indexError i)
  | _ => .error .typeError

/-- An HTTP POST request as the adapters build it; the body is left
abstract except for the prompt, which is all the claims inspect. -/
structure HttpReq where
  url : String
  prompt : String
deriving DecidableEq, Repr

/-- The HTTP transport as a model parameter: `requests.post` followed
by `response.json()`, returning either a transport-level failure or a
parsed JSON body. -/
abbrev Transport := HttpReq → Except String Json

/-- Response-text extraction of `ApiManager._call_openai`:
`response.json()["choices"][0]["message"]["content"]`. -/
def openaiExtract (j : Json) : Except PyErr Json := do
  let c ← jField j "choices"
  let c0 ← jAt c 0
  let m ← jField c0 "message"
  jField m "content"

/-- Response-text extraction of `ApiManager._call_anthropic`:
`response.json()["content"][0]["text"]`. -/
def anthropicExtract (j : Json) : Except PyErr Json := do
  let c ← jField j "content"
  let c0 ← jAt c 0
  jField c0 "text"

/-- Response-text extraction of `ApiManager._call_google`:
`response.json()["candidates"][0]["content"]["parts"][0]["text"]`. -/
def googleExtract (j : Json) : Except PyErr Json := do
  let c ← jField j "candidates"
  let c0 ← jAt c 0
  let ct ← jField c0 "content"
  let p ← jField ct "parts"
  let p0 ← jAt p 0
  jField p0 "text"

/-- Model of `OllamaClient.generate`: posts to `{base}/api/generate`
and returns `response.json().get("response", "")` — a missing
`response` field is silently replaced by the empty string (claim C9);
a transport failure propagates as an exception. -/
def ollamaGenerate (transport : Transport) (baseUrl model prompt : String) :
    List HttpReq × Except PyErr Json :=
  let req : HttpReq := ⟨baseUrl ++ "/api/generate", prompt ++ " [model " ++ model ++ "]"⟩
  ([req],
    match transport req with
    | .error e => .error (.transport e)
    | .ok j =>
      match j with
      | .obj fs => .ok ((fs.lookup "response").getD (.str ""))
      | _ => .error .typeError)

/-- The `api_keys` Redis hash: fields in insertion order (a small Redis
hash is listpack-encoded and `HGETALL` preserves field insertion
order), field name = provider name, value = credential. -/
abbrev KeysHash := List (String × String)

/-- Model of `ApiManager.store_api_key`:
`redis.hset("api_keys", provider, api_key)` — updating an existing
field keeps its position, a new field is appended. -/
def storeApiKey (h : KeysHash) (provider apiKey : String) : KeysHash :=
  if h.any (fun x => x.1 = provider) then
    h.map (fun x => if x.1 = provider then (provider, apiKey) else x)
  else h ++ [(provider, apiKey)]

/-- Model of `ApiManager.get_api_key`:
`redis.hget("api_keys", provider) or ""`. -/
def getApiKey (h : KeysHash) (provider : String) : String :=
  (h.lookup provider).getD ""

/-- Model of `ApiManager.list_providers`:
`list(redis.hgetall("api_keys").keys())`. -/
def listProviders (h : KeysHash) : List String := h.map Prod.fst

/-- First-registration order of provider names over a sequence of
`store_api_key` operations: the order of first occurrence of each name.
Used to state claim C5's registration-order property. -/
def regOrder (ops : List (String × String)) : List String :=
  ops.foldl (fun acc op => if op.1 ∈ acc then acc else acc ++ [op.1]) []

/-- The `api_keys` hash resulting from a sequence of `store_api_key`
operations applied to a fresh store. -/
def applyStores (ops : List (String × String)) : KeysHash :=
  ops.foldl (fun h op => storeApiKey h op.1 op.2) []

/-- Model of `ApiManager.call_external_llm`: the pair records the HTTP
requests actually issued (empty when no network call is attempted) and
the result (`Except` because the per-provider parsers can raise).  An
empty or missing credential yields the literal no-key message without
any call; a provider name outside `openai`/`anthropic`/`google` yields
the literal unsupported message without any call. -/
def callExternalLLM (transport : Transport) (h : KeysHash)
    (provider prompt : String) (model : Option String) :
    List HttpReq × Except PyErr Json :=
  let apiKey := getApiKey h provider
  if apiKey = "" then
    ([], .ok (.str ("No API key configured for " ++ provider)))
  else if provider = "openai" then
    let req : HttpReq := ⟨"https://api.openai.com/v1/chat/completions", prompt⟩
    ([req],
      match transport req with
      | .error e => .error (.transport e)
      | .ok j => openaiExtract j)
  else if provider = "anthropic" then
    let req : HttpReq := ⟨"https://api.anthropic.com/v1/messages", prompt⟩
    ([req],
      match transport req with
      | .error e => .error (.transport e)
      | .ok j => anthropicExtract j)
  else if provider = "google" then
    let req : HttpReq :=
      ⟨"https://generativelanguage.googleapis.com/v1beta/models/"
        ++ (model.getD "gemini-pro") ++ ":generateContent", prompt⟩
    ([req],
      match transport req with
      | .error e => .error (.transport e)
      | .ok j => googleExtract j)
  else
    ([], .ok (.str ("Unsupported provider: " ++ provider)))

/-- The fallback chain of `Orchestrator.use_external_llm`
(`elif providers: ... else: ...`): dispatch to the first configured
provider when any exists, else return the local-models message. -/
def useExternalLLMFallback (transport : Transport) (h : KeysHash)
    (prompt : String) (model : Option String) :
    List HttpReq × Except PyErr Json :=
  match listProviders h with
  | p0 :: _ => callExternalLLM transport h p0 prompt model
  | [] => ([], .ok (.str "Using local models (no external LLM configured)"))

/-- Model of `Orchestrator.use_external_llm`: the `provider` argument
is optional; Python's `if provider and provider in providers` treats
both `None` and the empty string as absent and otherwise requires
membership in the configured listing.  The configuration hash is only
read, never written, by this call. -/
def useExternalLLM (transport : Transport) (h : KeysHash)
    (prompt : String) (provider : Option String) (model : Option String) :
    List HttpReq × Except PyErr Json :=
  match provider with
  | some p =>
    if p ≠ "" ∧ p ∈ listProviders h then callExternalLLM transport h p prompt model
    else useExternalLLMFallback transport h prompt model
  | none => useExternalLLMFallback transport h prompt model

/-! ### The three-stage pipeline (claim C8)

The repository's `agent_pool.py` supplies the three stage calls
(`create_test_agent`, `create_code_agent`, `create_qa_agent`) but no
code in `src/` composes them into the spec's `AgentPipeline` state
machine; the composer is modelled from the spec below. -/

/-- Pipeline stages, per spec §4.3. -/
inductive Stage where
  | tests
  | code
  | review
  | done
  | failed
deriving DecidableEq, Repr

/-- One stage's durable output, per spec §3 (`StageArtifact`). -/
structure StageArtifact where
  stage : Stage
  output : String
deriving DecidableEq, Repr

/-- A pipeline run's terminal summary, per spec §3 (`PipelineRun`). -/
structure PipelineRun where
  stage : Stage
  artifacts : List StageArtifact
deriving DecidableEq, Repr

/-- Modelled from the spec: the `AgentPipeline` state machine of spec
§4.3 is not present in `src/` (only the three per-stage agent calls of
`agent_pool.py` are); `call` abstracts the per-stage ProviderRouter
call.  The run starts at TESTS and proceeds TESTS → CODE → REVIEW →
DONE, appending one artifact per successful stage; a failing call moves
the run to FAILED immediately, retaining the artifacts appended so far.
The second component lists the stages whose provider call was
attempted, in order. -/
def runPipeline (call : Stage → Except String String) : PipelineRun × List Stage :=
  match call .tests with
  | .error _ => (⟨.failed, []⟩, [.tests])
  | .ok t =>
    match call .code with
    | .error _ => (⟨.failed, [⟨.tests, t⟩]⟩, [.tests, .code])
    | .ok c =>
      match call .review with
      | .error _ => (⟨.failed, [⟨.tests, t⟩, ⟨.code, c⟩]⟩, [.tests, .code, .review])
      | .ok r =>
        (⟨.done, [⟨.tests, t⟩, ⟨.code, c⟩, ⟨.review, r⟩]⟩, [.tests, .code, .review])

/-! ### Sample data for concrete instances -/

/-- Constant sample embedding function (dimension 1) for concrete
instances. -/
def embedOne : String → List ℚ := fun _ => [1]

/-- Sample record builder for concrete instances. -/
def wRec (k : String) (v : List ℚ) (t : ℕ) : EmbRec := ⟨k, "", v, [], t⟩

/-! ### Arithmetic lemmas about the score comparator -/

theorem sgnq_of_pos {d : ℚ} (h : 0 < d) : sgnq d = 1 := by
  simp [sgnq, h]

theorem sgnq_of_neg {d : ℚ} (h : d < 0) : sgnq d = -1 := by
  simp [sgnq, h, asymm h]

theorem sgnq_of_zero : sgnq 0 = 0 := by
  simp [sgnq]

theorem sumsq_cons (x : ℚ) (xs : List ℚ) : sumsq (x :: xs) = x * x + sumsq xs := by
  simp [sumsq, dotQ]

theorem sumsq_nonneg (v : List ℚ) : 0 ≤ sumsq v := by
  induction v with
  | nil => simp [sumsq, dotQ]
  | cons x xs ih =>
    rw [sumsq_cons]
    nlinarith [mul_self_nonneg x]

theorem dotQ_eq_zero_of_sumsq_eq_zero {v : List ℚ} (h : sumsq v = 0) (q : List ℚ) :
    dotQ q v = 0 := by
  induction v generalizing q with
  | nil => cases q <;> simp [dotQ]
  | cons x xs ih =>
    rw [sumsq_cons] at h
    have hx : x * x = 0 ∧ sumsq xs = 0 := by
      constructor <;> nlinarith [mul_self_nonneg x, sumsq_nonneg xs]
    have hx0 : x = 0 := by
      have := hx.1
      nlinarith [mul_self_nonneg x]
    cases q with
    | nil => simp [dotQ]
    | cons y ys => simp [dotQ, hx0, ih hx.2]

/-- The domain facts every scoring key of a record satisfies: the
squared norm is nonnegative, and a zero squared norm forces a zero dot
product (a zero-sum-of-squares rational vector is the zero vector). -/
theorem sKey_dom (q : List ℚ) (r : EmbRec) :
    0 ≤ (sKey q r).2 ∧ ((sKey q r).2 = 0 → (sKey q r).1 = 0) := by
  refine ⟨sumsq_nonneg r.vec, fun h => ?_⟩
  exact dotQ_eq_zero_of_sumsq_eq_zero h q

theorem sLe_trans {p₁ p₂ p₃ : ℚ × ℚ}
    (h₁ : 0 ≤ p₁.2 ∧ (p₁.2 = 0 → p₁.1 = 0))
    (h₂ : 0 ≤ p₂.2 ∧ (p₂.2 = 0 → p₂.1 = 0))
    (h₃ : 0 ≤ p₃.2 ∧ (p₃.2 = 0 → p₃.1 = 0))
    (hab : sLe p₁ p₂) (hbc : sLe p₂ p₃) : sLe p₁ p₃ := by
  obtain ⟨d₁, n₁⟩ := p₁
  obtain ⟨d₂, n₂⟩ := p₂
  obtain ⟨d₃, n₃⟩ := p₃
  simp only [sLe] at hab hbc ⊢
  rcases hab with h | ⟨e₁, c₁⟩
  · rcases hbc with h2 | ⟨e₂, c₂⟩
    · exact Or.inl (h.trans h2)
    · exact Or.inl (lt_of_lt_of_eq h e₂)
  · rcases hbc with h2 | ⟨e₂, c₂⟩
    · exact Or.inl (lt_of_eq_of_lt e₁ h2)
    · refine Or.inr ⟨e₁.trans e₂, ?_⟩
      simp only at e₁ e₂ c₁ c₂ h₁ h₂ h₃ ⊢
      rcases lt_trichotomy d₁ 0 with hd₁ | hd₁ | hd₁
      · -- negative sign class: all three dot products are negative
        have s₁ : sgnq d₁ = -1 := sgnq_of_neg hd₁
        have s₂ : sgnq d₂ = -1 := by rw [← e₁, s₁]
        have s₃ : sgnq d₃ = -1 := by rw [← e₂, s₂]
        have hd₂ : d₂ < 0 := by
          by_contra hc
          rcases eq_or_lt_of_le (le_of_not_lt hc) with h0 | hp
          · rw [← h0, sgnq_of_zero] at s₂; norm_num at s₂
          · rw [sgnq_of_pos hp] at s₂; norm_num at s₂
        have hn₂ : 0 < n₂ := by
          rcases eq_or_lt_of_le h₂.1 with h0 | hp
          · exact absurd (h₂.2 h0.symm) (ne_of_lt hd₂)
          · exact hp
        rw [s₁, s₂] at c₁
        rw [s₂, s₃] at c₂
        rw [s₁, s₃]
        nlinarith [mul_le_mul_of_nonneg_right c₁ h₃.1,
          mul_le_mul_of_nonneg_right c₂ h₁.1]
      · -- zero sign class: all terms vanish
        have s₁ : sgnq d₁ = 0 := by rw [hd₁]; exact sgnq_of_zero
        have s₂ : sgnq d₂ = 0 := by rw [← e₁, s₁]
        have s₃ : sgnq d₃ = 0 := by rw [← e₂, s₂]
        rw [s₁, s₃]
        simp
      · -- positive sign class: all three dot products are positive
        have s₁ : sgnq d₁ = 1 := sgnq_of_pos hd₁
        have s₂ : sgnq d₂ = 1 := by rw [← e₁, s₁]
        have s₃ : sgnq d₃ = 1 := by rw [← e₂, s₂]
        have hd₂ : 0 < d₂ := by
          by_contra hc
          rcases eq_or_lt_of_le (le_of_not_lt hc) with h0 | hp
          · rw [h0, sgnq_of_zero] at s₂; norm_num at s₂
          · rw [sgnq_of_neg hp] at s₂; norm_num at s₂
        have hn₂ : 0 < n₂ := by
          rcases eq_or_lt_of_le h₂.1 with h0 | hp
          · exact absurd (h₂.2 h0.symm) (ne_of_gt hd₂)
          · exact hp
        rw [s₁, s₂] at c₁
        rw [s₂, s₃] at c₂
        rw [s₁, s₃]
        nlinarith [mul_le_mul_of_nonneg_right c₁ h₃.1,
          mul_le_mul_of_nonneg_right c₂ h₁.1]

theorem sLe_total (p₁ p₂ : ℚ × ℚ) : sLe p₁ p₂ ∨ sLe p₂ p₁ := by
  simp only [sLe]
  rcases lt_trichotomy (sgnq p₁.1) (sgnq p₂.1) with h | h | h
  · exact Or.inl (Or.inl h)
  · rcases le_total (sgnq p₁.1 * p₁.1 ^ 2 * p₂.2) (sgnq p₂.1 * p₂.1 ^ 2 * p₁.2) with hc | hc
    · exact Or.inl (Or.inr ⟨h, hc⟩)
    · exact Or.inr (Or.inr ⟨h.symm, hc⟩)
  · exact Or.inr (Or.inl h)

/-- Crux of the comparator correctness: over positive squared norms,
the sign-and-cross-multiplication test decides the real inequality
`d₁/√n₁ ≤ d₂/√n₂` (stated with denominators cleared). -/
theorem sLe_iff_mul_sqrt_le {d₁ d₂ n₁ n₂ : ℚ} (h₁ : 0 < n₁) (h₂ : 0 < n₂) :
    sLe (d₁, n₁) (d₂, n₂) ↔
      (d₁ : ℝ) * Real.sqrt (n₂ : ℝ) ≤ (d₂ : ℝ) * Real.sqrt (n₁ : ℝ) := by
  have hs₁ : (0 : ℝ) < Real.sqrt (n₁ : ℝ) := Real.sqrt_pos.mpr (by exact_mod_cast h₁)
  have hs₂ : (0 : ℝ) < Real.sqrt (n₂ : ℝ) := Real.sqrt_pos.mpr (by exact_mod_cast h₂)
  have sq₁ : Real.sqrt (n₁ : ℝ) ^ 2 = (n₁ : ℝ) := Real.sq_sqrt (by positivity)
  have sq₂ : Real.sqrt (n₂ : ℝ) ^ 2 = (n₂ : ℝ) := Real.sq_sqrt (by positivity)
  simp only [sLe]
  rcases lt_trichotomy d₁ 0 with hd₁ | hd₁ | hd₁ <;>
    rcases lt_trichotomy d₂ 0 with hd₂ | hd₂ | hd₂
  · -- both negative
    rw [sgnq_of_neg hd₁, sgnq_of_neg hd₂]
    have hr₁ : ((d₁ : ℝ)) < 0 := by exact_mod_cast hd₁
    have hr₂ : ((d₂ : ℝ)) < 0 := by exact_mod_cast hd₂
    constructor
    · rintro (h | ⟨-, h⟩)
      · norm_num at h
      · have hq : d₂ ^ 2 * n₁ ≤ d₁ ^ 2 * n₂ := by nlinarith
        have hR : ((d₂ : ℝ)) ^ 2 * (n₁ : ℝ) ≤ ((d₁ : ℝ)) ^ 2 * (n₂ : ℝ) := by
          exact_mod_cast hq
        have e₁ : (-(↑d₂ * Real.sqrt (n₁ : ℝ))) ^ 2 = ((d₂ : ℝ)) ^ 2 * (n₁ : ℝ) := by
          rw [neg_pow, mul_pow, sq₁]; ring
        have e₂ : (-(↑d₁ * Real.sqrt (n₂ : ℝ))) ^ 2 = ((d₁ : ℝ)) ^ 2 * (n₂ : ℝ) := by
          rw [neg_pow, mul_pow, sq₂]; ring
        rw [← e₁, ← e₂] at hR
        have := (pow_le_pow_iff_left₀ (by nlinarith) (by nlinarith)
          (by norm_num : (2 : ℕ) ≠ 0)).mp hR
        linarith
    · intro h
      refine Or.inr ⟨rfl, ?_⟩
      have h' : -(↑d₂ * Real.sqrt (n₁ : ℝ)) ≤ -(↑d₁ * Real.sqrt (n₂ : ℝ)) := by linarith
      have hsq := pow_le_pow_left₀ (by nlinarith) h' 2
      have e₁ : (-(↑d₂ * Real.sqrt (n₁ : ℝ))) ^ 2 = ((d₂ : ℝ)) ^ 2 * (n₁ : ℝ) := by
        rw [neg_pow, mul_pow, sq₁]; ring
      have e₂ : (-(↑d₁ * Real.sqrt (n₂ : ℝ))) ^ 2 = ((d₁ : ℝ)) ^ 2 * (n₂ : ℝ) := by
        rw [neg_pow, mul_pow, sq₂]; ring
      rw [e₁, e₂] at hsq
      have hq : d₂ ^ 2 * n₁ ≤ d₁ ^ 2 * n₂ := by exact_mod_cast hsq
      nlinarith
  · -- d₁ < 0 = d₂
    subst hd₂
    rw [sgnq_of_neg hd₁, sgnq_of_zero]
    have hr₁ : ((d₁ : ℝ)) < 0 := by exact_mod_cast hd₁
    constructor
    · intro _
      push_cast
      nlinarith
    · intro _
      exact Or.inl (by norm_num)
  · -- d₁ < 0 < d₂
    rw [sgnq_of_neg hd₁, sgnq_of_pos hd₂]
    have hr₁ : ((d₁ : ℝ)) < 0 := by exact_mod_cast hd₁
    have hr₂ : (0 : ℝ) < ((d₂ : ℝ)) := by exact_mod_cast hd₂
    constructor
    · intro _
      nlinarith
    · intro _
      exact Or.inl (by norm_num)
  · -- d₂ < 0 = d₁
    subst hd₁
    rw [sgnq_of_zero, sgnq_of_neg hd₂]
    have hr₂ : ((d₂ : ℝ)) < 0 := by exact_mod_cast hd₂
    constructor
    · rintro (h | ⟨h, -⟩) <;> norm_num at h
    · intro h
      push_cast at h
      nlinarith
  · -- both zero
    subst hd₁
    subst hd₂
    rw [sgnq_of_zero]
    constructor
    · intro _
      push_cast
      nlinarith
    · intro _
      exact Or.inr ⟨rfl, by norm_num⟩
  · -- d₁ = 0 < d₂
    subst hd₁
    rw [sgnq_of_zero, sgnq_of_pos hd₂]
    have hr₂ : (0 : ℝ) < ((d₂ : ℝ)) := by exact_mod_cast hd₂
    constructor
    · intro _
      push_cast
      nlinarith
    · intro _
      exact Or.inl (by norm_num)
  · -- d₂ < 0 < d₁
    rw [sgnq_of_pos hd₁, sgnq_of_neg hd₂]
    have hr₁ : (0 : ℝ) < ((d₁ : ℝ)) := by exact_mod_cast hd₁
    have hr₂ : ((d₂ : ℝ)) < 0 := by exact_mod_cast hd₂
    constructor
    · rintro (h | ⟨h, -⟩) <;> norm_num at h
    · intro h
      nlinarith
  · -- d₂ = 0 < d₁
    subst hd₂
    rw [sgnq_of_pos hd₁, sgnq_of_zero]
    have hr₁ : (0 : ℝ) < ((d₁ : ℝ)) := by exact_mod_cast hd₁
    constructor
    · rintro (h | ⟨h, -⟩) <;> norm_num at h
    · intro h
      push_cast at h
      nlinarith
  · -- both positive
    rw [sgnq_of_pos hd₁, sgnq_of_pos hd₂]
    have hr₁ : (0 : ℝ) < ((d₁ : ℝ)) := by exact_mod_cast hd₁
    have hr₂ : (0 : ℝ) < ((d₂ : ℝ)) := by exact_mod_cast hd₂
    constructor
    · rintro (h | ⟨-, h⟩)
      · norm_num at h
      · have hq : d₁ ^ 2 * n₂ ≤ d₂ ^ 2 * n₁ := by nlinarith
        have hR : ((d₁ : ℝ)) ^ 2 * (n₂ : ℝ) ≤ ((d₂ : ℝ)) ^ 2 * (n₁ : ℝ) := by
          exact_mod_cast hq
        have e₁ : (↑d₁ * Real.sqrt (n₂ : ℝ)) ^ 2 = ((d₁ : ℝ)) ^ 2 * (n₂ : ℝ) := by
          rw [mul_pow, sq₂]
        have e₂ : (↑d₂ * Real.sqrt (n₁ : ℝ)) ^ 2 = ((d₂ : ℝ)) ^ 2 * (n₁ : ℝ) := by
          rw [mul_pow, sq₁]
        rw [← e₁, ← e₂] at hR
        exact (pow_le_pow_iff_left₀ (by nlinarith) (by nlinarith)
          (by norm_num : (2 : ℕ) ≠ 0)).mp hR
    · intro h
      refine Or.inr ⟨rfl, ?_⟩
      have hsq := pow_le_pow_left₀ (by nlinarith) h 2
      have e₁ : (↑d₁ * Real.sqrt (n₂ : ℝ)) ^ 2 = ((d₁ : ℝ)) ^ 2 * (n₂ : ℝ) := by
        rw [mul_pow, sq₂]
      have e₂ : (↑d₂ * Real.sqrt (n₁ : ℝ)) ^ 2 = ((d₂ : ℝ)) ^ 2 * (n₁ : ℝ) := by
        rw [mul_pow, sq₁]
      rw [e₁, e₂] at hsq
      have hq : d₁ ^ 2 * n₂ ≤ d₂ ^ 2 * n₁ := by exact_mod_cast hsq
      nlinarith

/-- The rational comparator decides exactly the comparison of the real
cosine-similarity scores the source sorts by, whenever all the norms
involved are nonzero. -/
theorem sLe_iff_cosSim_le {q : List ℚ} {a b : EmbRec}
    (hq : 0 < sumsq q) (ha : 0 < sumsq a.vec) (hb : 0 < sumsq b.vec) :
    sLe (sKey q a) (sKey q b) ↔ cosSim q a.vec ≤ cosSim q b.vec := by
  have hs : (0 : ℝ) < Real.sqrt ((sumsq q : ℚ) : ℝ) :=
    Real.sqrt_pos.mpr (by exact_mod_cast hq)
  have hs₁ : (0 : ℝ) < Real.sqrt ((sumsq a.vec : ℚ) : ℝ) :=
    Real.sqrt_pos.mpr (by exact_mod_cast ha)
  have hs₂ : (0 : ℝ) < Real.sqrt ((sumsq b.vec : ℚ) : ℝ) :=
    Real.sqrt_pos.mpr (by exact_mod_cast hb)
  rw [cosSim, cosSim, div_le_div_iff₀ (by positivity) (by positivity)]
  have hre : ((dotQ q a.vec : ℚ) : ℝ) *
        (Real.sqrt ((sumsq q : ℚ) : ℝ) * Real.sqrt ((sumsq b.vec : ℚ) : ℝ)) ≤
        ((dotQ q b.vec : ℚ) : ℝ) *
        (Real.sqrt ((sumsq q : ℚ) : ℝ) * Real.sqrt ((sumsq a.vec : ℚ) : ℝ)) ↔
      ((dotQ q a.vec : ℚ) : ℝ) * Real.sqrt ((sumsq b.vec : ℚ) : ℝ) ≤
        ((dotQ q b.vec : ℚ) : ℝ) * Real.sqrt ((sumsq a.vec : ℚ) : ℝ) := by
    rw [show ((dotQ q a.vec : ℚ) : ℝ) *
          (Real.sqrt ((sumsq q : ℚ) : ℝ) * Real.sqrt ((sumsq b.vec : ℚ) : ℝ)) =
          Real.sqrt ((sumsq q : ℚ) : ℝ) *
          (((dotQ q a.vec : ℚ) : ℝ) * Real.sqrt ((sumsq b.vec : ℚ) : ℝ)) by ring,
        show ((dotQ q b.vec : ℚ) : ℝ) *
          (Real.sqrt ((sumsq q : ℚ) : ℝ) * Real.sqrt ((sumsq a.vec : ℚ) : ℝ)) =
          Real.sqrt ((sumsq q : ℚ) : ℝ) *
          (((dotQ q b.vec : ℚ) : ℝ) * Real.sqrt ((sumsq a.vec : ℚ) : ℝ)) by ring]
    exact mul_le_mul_left hs
  rw [hre]
  exact sLe_iff_mul_sqrt_le ha hb

/-! ### Sorting and slicing lemmas for `similaritySearch` -/

theorem simLeB_desc_trans (q : List ℚ) :
    ∀ (a b c : EmbRec), simLeB q b a = true → simLeB q c b = true → simLeB q c a = true := by
  intro a b c h₁ h₂
  simp only [simLeB, decide_eq_true_eq] at h₁ h₂ ⊢
  exact sLe_trans (sKey_dom q c) (sKey_dom q b) (sKey_dom q a) h₂ h₁

theorem simLeB_desc_total (q : List ℚ) :
    ∀ (a b : EmbRec), (simLeB q b a || simLeB q a b) = true := by
  intro a b
  simp only [Bool.or_eq_true, simLeB, decide_eq_true_eq]
  exact sLe_total (sKey q b) (sKey q a)

theorem pySliceTo_sublist (l : List α) (k : ℤ) : List.Sublist (pySliceTo l k) l := by
  unfold pySliceTo
  split <;> exact List.take_sublist _ _

theorem length_pySliceTo_of_nonneg (l : List α) {k : ℤ} (h : 0 ≤ k) :
    (pySliceTo l k).length = min k.toNat l.length := by
  simp [pySliceTo, h, List.length_take]

theorem length_pySliceTo_of_neg (l : List α) {k : ℤ} (h : k < 0) :
    (pySliceTo l k).length = l.length - (-k).toNat := by
  simp [pySliceTo, not_le.mpr h, List.length_take]

theorem pySliceTo_of_le_length (l : List α) {k : ℤ} (h : (l.length : ℤ) ≤ k) :
    pySliceTo l k = l := by
  have h0 : 0 ≤ k := le_trans (by positivity) h
  have hlen : l.length ≤ k.toNat := by omega
  simp [pySliceTo, h0, List.take_of_length_le hlen]

/-- Unfolding of `similaritySearch` into its sort and slice. -/
theorem similaritySearch_def (embed : String → List ℚ) (st : KeySpace)
    (query ns : String) (topK : ℤ) :
    similaritySearch embed st query ns topK =
      pySliceTo ((matchedRecs st ns).mergeSort
        (fun a b => simLeB (embed query) b a)) topK := rfl

theorem similaritySearch_sublist_matched (embed : String → List ℚ) (st : KeySpace)
    (query ns : String) (topK : ℤ) :
    ∀ r ∈ similaritySearch embed st query ns topK, r ∈ matchedRecs st ns := by
  intro r hr
  rw [similaritySearch_def] at hr
  have := (pySliceTo_sublist _ topK).subset hr
  exact (List.mergeSort_perm (matchedRecs st ns) _).subset this

/-- C1 (amended): for every namespace `ns` and every `topK > 0` (on
stores where the source's `np.dot` does not raise, hypothesis `hd`),
search returns exactly `min(n, topK)` results where `n` counts all
records matching the namespace pattern `embeddings:{ns}:*` — there is
no eligibility filter, so zero-norm (ineligible) records are counted
and returned like any others; every returned record is a stored record
matching the pattern (records of other namespaces are never returned);
and when the query and all matched records have nonzero norms (every
matched record eligible, scores NaN-free) the results are sorted in
non-increasing cosine-similarity order, and `m < topK` eligible
records yield exactly `m` results. -/
theorem similaritySearch_topK_sorted_namespace
    (embed : String → List ℚ) (st : KeySpace) (query ns : String) (topK : ℤ)
    (hK : 0 < topK)
    (hd : ∀ r ∈ matchedRecs st ns, r.vec.length = (embed query).length) :
    (similaritySearch embed st query ns topK).length =
        min topK.toNat (matchedRecs st ns).length ∧
      (∀ r ∈ similaritySearch embed st query ns topK, r ∈ st ∧ nsMatch ns r.key = true) ∧
      (sumsq (embed query) ≠ 0 → (∀ r ∈ matchedRecs st ns, sumsq r.vec ≠ 0) →
        List.Pairwise
          (fun a b => cosSim (embed query) b.vec ≤ cosSim (embed query) a.vec)
          (similaritySearch embed st query ns topK)) ∧
      ((matchedRecs st ns).length < topK.toNat →
        (similaritySearch embed st query ns topK).length = (matchedRecs st ns).length) := by
  have hmemM := similaritySearch_sublist_matched embed st query ns topK
  have hlen : (similaritySearch embed st query ns topK).length =
      min topK.toNat (matchedRecs st ns).length := by
    rw [similaritySearch_def, length_pySliceTo_of_nonneg _ hK.le, List.length_mergeSort]
  refine ⟨hlen, ?_, ?_, ?_⟩
  · intro r hr
    exact List.mem_filter.mp (hmemM r hr)
  · intro hq hv
    have hq0 : 0 < sumsq (embed query) := lt_of_le_of_ne (sumsq_nonneg _) (Ne.symm hq)
    have hsorted : ((matchedRecs st ns).mergeSort
        (fun a b => simLeB (embed query) b a)).Pairwise
        (fun a b => simLeB (embed query) b a) :=
      List.sorted_mergeSort (simLeB_desc_trans (embed query))
        (simLeB_desc_total (embed query)) (matchedRecs st ns)
    have hout : (similaritySearch embed st query ns topK).Pairwise
        (fun a b => simLeB (embed query) b a) := by
      rw [similaritySearch_def]
      exact List.Pairwise.sublist (pySliceTo_sublist _ _) hsorted
    refine hout.imp_of_mem ?_
    intro a b ha hb h
    have haM := hmemM a ha
    have hbM := hmemM b hb
    have hna : 0 < sumsq a.vec := lt_of_le_of_ne (sumsq_nonneg _) (Ne.symm (hv a haM))
    have hnb : 0 < sumsq b.vec := lt_of_le_of_ne (sumsq_nonneg _) (Ne.symm (hv b hbM))
    simp only [simLeB, decide_eq_true_eq] at h
    exact (sLe_iff_cosSim_le hq0 hnb hna).mp h
  · intro hm
    rw [hlen]
    exact min_eq_right hm.le

/-- Witness for the amended C1 at a concrete one-record store. -/
theorem similaritySearch_topK_sorted_namespace_witness :
    ((0 : ℤ) < 3 ∧
      (∀ r ∈ matchedRecs [wRec "embeddings:ns:k1" [1] 1] "ns",
        r.vec.length = (embedOne "q").length)) ∧
    ((similaritySearch embedOne [wRec "embeddings:ns:k1" [1] 1] "q" "ns" 3).length =
        min (3 : ℤ).toNat (matchedRecs [wRec "embeddings:ns:k1" [1] 1] "ns").length ∧
      (∀ r ∈ similaritySearch embedOne [wRec "embeddings:ns:k1" [1] 1] "q" "ns" 3,
        r ∈ [wRec "embeddings:ns:k1" [1] 1] ∧ nsMatch "ns" r.key = true) ∧
      (sumsq (embedOne "q") ≠ 0 →
        (∀ r ∈ matchedRecs [wRec "embeddings:ns:k1" [1] 1] "ns", sumsq r.vec ≠ 0) →
        List.Pairwise
          (fun a b => cosSim (embedOne "q") b.vec ≤ cosSim (embedOne "q") a.vec)
          (similaritySearch embedOne [wRec "embeddings:ns:k1" [1] 1] "q" "ns" 3)) ∧
      ((matchedRecs [wRec "embeddings:ns:k1" [1] 1] "ns").length < (3 : ℤ).toNat →
        (similaritySearch embedOne [wRec "embeddings:ns:k1" [1] 1] "q" "ns" 3).length =
          (matchedRecs [wRec "embeddings:ns:k1" [1] 1] "ns").length)) := by
  have hd : ∀ r ∈ matchedRecs [wRec "embeddings:ns:k1" [1] 1] "ns",
      r.vec.length = (embedOne "q").length := by
    intro r hr
    have hmem : r = wRec "embeddings:ns:k1" [1] 1 := by
      simpa using (List.mem_filter.mp hr).1
    subst hmem
    simp [wRec, embedOne]
  exact ⟨⟨by decide, hd⟩,
    similaritySearch_topK_sorted_namespace embedOne
      [wRec "embeddings:ns:k1" [1] 1] "q" "ns" 3 (by decide) hd⟩

/-- Evaluation helper: when the namespace's records are already listed
in non-increasing score order, the stable sort leaves them in place. -/
theorem similaritySearch_of_sorted (embed : String → List ℚ) (st : KeySpace)
    (query ns : String) (topK : ℤ)
    (h : (matchedRecs st ns).Pairwise (fun a b => simLeB (embed query) b a)) :
    similaritySearch embed st query ns topK = pySliceTo (matchedRecs st ns) topK := by
  rw [similaritySearch_def, List.mergeSort_of_sorted h]

/-- Counterexample to C1 as stated: a namespace holding one eligible
record (nonzero norm) and one ineligible zero-norm record, with
`topK = 5`: the claim's "m < topK eligible records ⇒ exactly m
results" demands 1 result, but search returns 2 — the source applies
no eligibility filter, so the zero-norm record is counted and returned
like any other (and its NaN score deprives the source's output of a
well-defined score order). -/
theorem search_counts_ineligible_records :
    sumsq (wRec "embeddings:ns:k1" [1] 1).vec ≠ 0 ∧
      sumsq (wRec "embeddings:ns:z" [0] 2).vec = 0 ∧
      (similaritySearch embedOne
        [wRec "embeddings:ns:k1" [1] 1, wRec "embeddings:ns:z" [0] 2]
        "q" "ns" 5).length = 2 := by
  refine ⟨by simp [wRec, sumsq, dotQ], by simp [wRec, sumsq, dotQ], ?_⟩
  rw [similaritySearch_of_sorted]
  · rfl
  · simp [matchedRecs, nsMatch, wRec, embedOne, List.pairwise_cons,
      simLeB, sLe, sKey, sgnq, sumsq, dotQ]

/-- Counterexample to C6 as stated: with two stored records and
`topK = -1 ≤ 0`, search returns one record (Python's `results[:-1]`
drops only the last element), not the empty sequence. -/
theorem search_negative_topK_not_empty :
    (-1 : ℤ) ≤ 0 ∧
      similaritySearch embedOne
        [wRec "embeddings:ns:k1" [1] 1, wRec "embeddings:ns:k2" [-1] 2]
        "q" "ns" (-1) = [wRec "embeddings:ns:k1" [1] 1] := by
  refine ⟨by decide, ?_⟩
  rw [similaritySearch_of_sorted]
  · rfl
  · simp [matchedRecs, nsMatch, wRec, embedOne, List.pairwise_cons,
      simLeB, sLe, sKey, sgnq, sumsq, dotQ]
    norm_num

/-- C6 (amended): `similaritySearch` returns the Python slice
`sorted[:topK]`: `topK = 0` yields the empty sequence, a negative
`topK` drops the last `|topK|` of the sorted records (so it returns
`max(m - |topK|, 0)` records, not the empty sequence), and a `topK` at
least the number of matching records returns all of them with no
padding. -/
theorem search_topK_slice_semantics (embed : String → List ℚ) (st : KeySpace)
    (query ns : String) (topK : ℤ) :
    (topK = 0 → similaritySearch embed st query ns topK = []) ∧
      (topK < 0 → (similaritySearch embed st query ns topK).length =
        (matchedRecs st ns).length - (-topK).toNat) ∧
      (((matchedRecs st ns).length : ℤ) ≤ topK →
        (similaritySearch embed st query ns topK).Perm (matchedRecs st ns)) := by
  refine ⟨?_, ?_, ?_⟩
  · intro h
    subst h
    rw [similaritySearch_def]
    simp [pySliceTo]
  · intro h
    rw [similaritySearch_def, length_pySliceTo_of_neg _ h, List.length_mergeSort]
  · intro h
    rw [similaritySearch_def,
      pySliceTo_of_le_length _ (by rw [List.length_mergeSort]; exact h)]
    exact List.mergeSort_perm _ _

/-- Witness for the amended C6 at concrete stores and `topK` values. -/
theorem search_topK_slice_semantics_witness :
    (similaritySearch embedOne [wRec "embeddings:ns:k1" [1] 1] "q" "ns" 0 = []) ∧
      ((-1 : ℤ) < 0 ∧
        (similaritySearch embedOne
          [wRec "embeddings:ns:k1" [1] 1, wRec "embeddings:ns:k2" [-1] 2]
          "q" "ns" (-1)).length =
        (matchedRecs
          [wRec "embeddings:ns:k1" [1] 1, wRec "embeddings:ns:k2" [-1] 2]
          "ns").length - ((1 : ℤ)).toNat) ∧
      (((matchedRecs [wRec "embeddings:ns:k1" [1] 1] "ns").length : ℤ) ≤ 5 ∧
        (similaritySearch embedOne [wRec "embeddings:ns:k1" [1] 1] "q" "ns" 5).Perm
          (matchedRecs [wRec "embeddings:ns:k1" [1] 1] "ns")) := by
  refine ⟨?_, ⟨by decide, ?_⟩, ⟨by decide, ?_⟩⟩
  · exact (search_topK_slice_semantics embedOne
      [wRec "embeddings:ns:k1" [1] 1] "q" "ns" 0).1 rfl
  · exact (search_topK_slice_semantics embedOne
      [wRec "embeddings:ns:k1" [1] 1, wRec "embeddings:ns:k2" [-1] 2]
      "q" "ns" (-1)).2.1 (by decide)
  · exact (search_topK_slice_semantics embedOne
      [wRec "embeddings:ns:k1" [1] 1] "q" "ns" 5).2.2 (by decide)

/-- Counterexample to C3 as stated: a stored record whose vector has
zero norm is returned by search, not excluded (the source computes
`0/0`, a NaN score, for it and appends it to the results). -/
theorem search_zero_norm_record_returned :
    sumsq (wRec "embeddings:ns:z" [0] 1).vec = 0 ∧
      wRec "embeddings:ns:z" [0] 1 ∈
        similaritySearch embedOne [wRec "embeddings:ns:z" [0] 1] "q" "ns" 5 := by
  refine ⟨by simp [wRec, sumsq, dotQ], ?_⟩
  rw [similaritySearch_of_sorted]
  · simp [pySliceTo, matchedRecs, nsMatch, wRec]
  · simp [matchedRecs, nsMatch, wRec]

/-- C3 (amended): search never excludes any matching record and never
faults: every record of the namespace — in particular one with a
zero-norm vector, whose score is undefined (NaN in the source) — is in
the returned sequence whenever `topK` accommodates the namespace's
record count. -/
theorem search_returns_all_matched_even_zero_norm (embed : String → List ℚ)
    (st : KeySpace) (query ns : String) (topK : ℤ)
    (h : ((matchedRecs st ns).length : ℤ) ≤ topK) :
    ∀ r ∈ matchedRecs st ns, r ∈ similaritySearch embed st query ns topK := by
  intro r hr
  rw [similaritySearch_def,
    pySliceTo_of_le_length _ (by rw [List.length_mergeSort]; exact h)]
  exact (List.mergeSort_perm _ _).mem_iff.mpr hr

/-- Witness for the amended C3: the concrete zero-norm record is
returned. -/
theorem search_returns_all_matched_even_zero_norm_witness :
    (((matchedRecs [wRec "embeddings:ns:z" [0] 1] "ns").length : ℤ) ≤ 5 ∧
      sumsq (wRec "embeddings:ns:z" [0] 1).vec = 0) ∧
      wRec "embeddings:ns:z" [0] 1 ∈
        similaritySearch embedOne [wRec "embeddings:ns:z" [0] 1] "q" "ns" 5 := by
  refine ⟨⟨by decide, by simp [wRec, sumsq, dotQ]⟩, ?_⟩
  refine search_returns_all_matched_even_zero_norm embedOne
    [wRec "embeddings:ns:z" [0] 1] "q" "ns" 5 (by decide) _ ?_
  simp [matchedRecs, nsMatch, wRec]

/-- Counterexample to C7 as stated: the keyspace enumeration that
`redis.keys` returns is unspecified and need not follow insertion
order.  With two equal-score records whose enumeration order is the
reverse of their insertion order, search returns the later-inserted
record first, so ties are not broken by earliest insertion. -/
theorem search_tie_order_not_insertion :
    (wRec "embeddings:ns:k1" [1] 1).insertedAt <
        (wRec "embeddings:ns:k2" [1] 2).insertedAt ∧
      (wRec "embeddings:ns:k1" [1] 1).vec = (wRec "embeddings:ns:k2" [1] 2).vec ∧
      similaritySearch embedOne
        [wRec "embeddings:ns:k2" [1] 2, wRec "embeddings:ns:k1" [1] 1]
        "q" "ns" 5 =
        [wRec "embeddings:ns:k2" [1] 2, wRec "embeddings:ns:k1" [1] 1] := by
  refine ⟨by decide, rfl, ?_⟩
  rw [similaritySearch_of_sorted]
  · rfl
  · simp [matchedRecs, nsMatch, wRec, embedOne, List.pairwise_cons,
      simLeB, sLe, sKey, sgnq, sumsq, dotQ]

/-- C7 (amended): the sort is stable, so records with equal
similarity scores appear in the output in the (unspecified) order in
which the backing store enumerates their keys — not necessarily
insertion order; the output is a deterministic function of that
enumeration, the query, and `topK`. Stability statement: any two
records that are tied in score and appear in enumeration order `a`
then `b` among the namespace's records keep that relative order in the
output (stated for a `topK` that does not truncate). -/
theorem search_tie_preserves_enumeration (embed : String → List ℚ)
    (st : KeySpace) (query ns : String) (topK : ℤ) (a b : EmbRec)
    (hq : sumsq (embed query) ≠ 0)
    (hna : sumsq a.vec ≠ 0) (hnb : sumsq b.vec ≠ 0)
    (heq : cosSim (embed query) a.vec = cosSim (embed query) b.vec)
    (hsub : List.Sublist [a, b] (matchedRecs st ns))
    (hlen : ((matchedRecs st ns).length : ℤ) ≤ topK) :
    List.Sublist [a, b] (similaritySearch embed st query ns topK) := by
  have hq0 : 0 < sumsq (embed query) := lt_of_le_of_ne (sumsq_nonneg _) (Ne.symm hq)
  have ha0 : 0 < sumsq a.vec := lt_of_le_of_ne (sumsq_nonneg _) (Ne.symm hna)
  have hb0 : 0 < sumsq b.vec := lt_of_le_of_ne (sumsq_nonneg _) (Ne.symm hnb)
  rw [similaritySearch_def,
    pySliceTo_of_le_length _ (by rw [List.length_mergeSort]; exact hlen)]
  refine List.sublist_mergeSort (simLeB_desc_trans (embed query))
    (simLeB_desc_total (embed query)) ?_ hsub
  have hle : simLeB (embed query) b a = true := by
    simp only [simLeB, decide_eq_true_eq]
    exact (sLe_iff_cosSim_le hq0 hb0 ha0).mpr (le_of_eq heq.symm)
  simp [List.pairwise_cons, hle]

/-- Witness for the amended C7 at a concrete two-record tie. -/
theorem search_tie_preserves_enumeration_witness :
    (sumsq (embedOne "q") ≠ 0 ∧
      sumsq (wRec "embeddings:ns:k2" [1] 2).vec ≠ 0 ∧
      sumsq (wRec "embeddings:ns:k1" [1] 1).vec ≠ 0 ∧
      cosSim (embedOne "q") (wRec "embeddings:ns:k2" [1] 2).vec =
        cosSim (embedOne "q") (wRec "embeddings:ns:k1" [1] 1).vec ∧
      List.Sublist [wRec "embeddings:ns:k2" [1] 2, wRec "embeddings:ns:k1" [1] 1]
        (matchedRecs
          [wRec "embeddings:ns:k2" [1] 2, wRec "embeddings:ns:k1" [1] 1] "ns") ∧
      ((matchedRecs
          [wRec "embeddings:ns:k2" [1] 2, wRec "embeddings:ns:k1" [1] 1]
          "ns").length : ℤ) ≤ 5) ∧
      List.Sublist [wRec "embeddings:ns:k2" [1] 2, wRec "embeddings:ns:k1" [1] 1]
        (similaritySearch embedOne
          [wRec "embeddings:ns:k2" [1] 2, wRec "embeddings:ns:k1" [1] 1]
          "q" "ns" 5) := by
  have hq : sumsq (embedOne "q") ≠ 0 := by simp [embedOne, sumsq, dotQ]
  have hn2 : sumsq (wRec "embeddings:ns:k2" [1] 2).vec ≠ 0 := by
    simp [wRec, sumsq, dotQ]
  have hn1 : sumsq (wRec "embeddings:ns:k1" [1] 1).vec ≠ 0 := by
    simp [wRec, sumsq, dotQ]
  have heq : cosSim (embedOne "q") (wRec "embeddings:ns:k2" [1] 2).vec =
      cosSim (embedOne "q") (wRec "embeddings:ns:k1" [1] 1).vec := rfl
  have hsub : List.Sublist
      [wRec "embeddings:ns:k2" [1] 2, wRec "embeddings:ns:k1" [1] 1]
      (matchedRecs
        [wRec "embeddings:ns:k2" [1] 2, wRec "embeddings:ns:k1" [1] 1] "ns") :=
    List.Sublist.refl _
  exact ⟨⟨hq, hn2, hn1, heq, hsub, by decide⟩,
    search_tie_preserves_enumeration embedOne
      [wRec "embeddings:ns:k2" [1] 2, wRec "embeddings:ns:k1" [1] 1]
      "q" "ns" 5 _ _ hq hn2 hn1 heq hsub (by decide)⟩

/-! ### Store lemmas (claim C2) -/

theorem findRec_hsetRec (st : KeySpace) (r : EmbRec) :
    findRec (hsetRec st r) r.key = some r := by
  unfold hsetRec findRec
  by_cases h : st.any (fun x => x.key = r.key)
  · rw [if_pos h]
    induction st with
    | nil => simp at h
    | cons x xs ih =>
      by_cases hx : x.key = r.key
      · simp [List.find?, hx]
      · have hxs : xs.any (fun x => x.key = r.key) := by
          simpa [List.any_cons, hx] using h
        simpa [List.find?, hx] using ih hxs
  · rw [if_neg h]
    induction st with
    | nil => simp [List.find?]
    | cons x xs ih =>
      have hx : ¬ x.key = r.key := by
        intro hc
        exact h (by simp [List.any_cons, hc])
      have hxs : ¬ xs.any (fun x => x.key = r.key) := by
        intro hc
        exact h (by simp [List.any_cons, hc])
      simpa [List.find?, hx] using ih hxs

/-- Counterexample to C2 as stated: storing into a keyspace whose
existing record has dimension 2, with an embedding function producing
dimension 3, raises nothing — the model function is total exactly
because `store_embedding` contains no validation — and writes the
mismatched vector verbatim, changing the store. -/
theorem store_mismatched_dimension_written :
    (wRec "embeddings:k1" [1, 2] 0).vec.length ≠
        ((fun _ => [(1 : ℚ), 2, 3]) "t2" : List ℚ).length ∧
      storeEmbedding (fun _ => [(1 : ℚ), 2, 3]) [wRec "embeddings:k1" [1, 2] 0]
        "k2" "t2" [] 1 ≠ [wRec "embeddings:k1" [1, 2] 0] ∧
      findRec
        (storeEmbedding (fun _ => [(1 : ℚ), 2, 3]) [wRec "embeddings:k1" [1, 2] 0]
          "k2" "t2" [] 1) "embeddings:k2" =
        some ⟨"embeddings:k2", "t2", [1, 2, 3], [], 1⟩ := by
  refine ⟨by decide, ?_, ?_⟩
  · simp [storeEmbedding, hsetRec, redisKey, wRec]
  · simp [storeEmbedding, hsetRec, redisKey, wRec, findRec, List.find?]

/-- C2 (amended): `store_embedding` performs no dimension validation:
even when the namespace's existing records have a different dimension
from the computed embedding, the store raises nothing and upserts the
record with the mismatched vector written verbatim (never truncated or
reshaped). -/
theorem storeEmbedding_writes_without_dimension_check
    (embed : String → List ℚ) (st : KeySpace) (key text : String)
    (meta : List (String × String)) (now : ℕ)
    (hD : ∃ r ∈ st, r.vec.length ≠ (embed text).length) :
    findRec (storeEmbedding embed st key text meta now) (redisKey key) =
      some ⟨redisKey key, text, embed text, meta, now⟩ :=
  findRec_hsetRec st ⟨redisKey key, text, embed text, meta, now⟩

/-- Witness for the amended C2 at the concrete mismatched store. -/
theorem storeEmbedding_writes_without_dimension_check_witness :
    (∃ r ∈ [wRec "embeddings:k1" [1, 2] 0],
        r.vec.length ≠ (((fun _ => [(1 : ℚ), 2, 3]) "t2" : List ℚ)).length) ∧
      findRec
        (storeEmbedding (fun _ => [(1 : ℚ), 2, 3]) [wRec "embeddings:k1" [1, 2] 0]
          "k2" "t2" [] 1) (redisKey "k2") =
        some ⟨redisKey "k2", "t2", [1, 2, 3], [], 1⟩ := by
  have hD : ∃ r ∈ [wRec "embeddings:k1" [1, 2] 0],
      r.vec.length ≠ (((fun _ => [(1 : ℚ), 2, 3]) "t2" : List ℚ)).length :=
    ⟨wRec "embeddings:k1" [1, 2] 0, by simp, by decide⟩
  exact ⟨hD, storeEmbedding_writes_without_dimension_check
    (fun _ => [(1 : ℚ), 2, 3]) [wRec "embeddings:k1" [1, 2] 0] "k2" "t2" [] 1 hD⟩

/-! ### Provider-routing theorems -/

/-- C10: for every provider name outside `openai`/`anthropic`/`google`,
even with a nonempty credential configured under that name,
`call_external_llm` returns the literal unsupported-provider message
and issues no HTTP request: the dispatchable set is exactly those
three names. -/
theorem callExternalLLM_unsupported_provider (transport : Transport)
    (h : KeysHash) (provider prompt : String) (model : Option String)
    (hk : getApiKey h provider ≠ "")
    (hp : provider ≠ "openai" ∧ provider ≠ "anthropic" ∧ provider ≠ "google") :
    callExternalLLM transport h provider prompt model =
      ([], .ok (.str ("Unsupported provider: " ++ provider))) := by
  simp [callExternalLLM, hk, hp.1, hp.2.1, hp.2.2]

/-- Witness for C10 with a configured but unsupported provider. -/
theorem callExternalLLM_unsupported_provider_witness :
    (getApiKey [("mistral", "sk-m")] "mistral" ≠ "" ∧
      ("mistral" ≠ "openai" ∧ "mistral" ≠ "anthropic" ∧ "mistral" ≠ "google")) ∧
      callExternalLLM (fun _ => .error "down") [("mistral", "sk-m")]
        "mistral" "hi" none =
        ([], .ok (.str ("Unsupported provider: " ++ "mistral"))) :=
  ⟨⟨by decide, by decide, by decide, by decide⟩,
    callExternalLLM_unsupported_provider (fun _ => .error "down")
      [("mistral", "sk-m")] "mistral" "hi" none (by decide)
      ⟨by decide, by decide, by decide⟩⟩

/-- Counterexample to C4 as stated: with `openai` configured and the
explicitly named provider `zzz` unconfigured, `use_external_llm`
silently dispatches to `openai` and issues an HTTP request to it,
instead of returning an unconfigured error without attempting any
provider call. -/
theorem useExternalLLM_unconfigured_name_calls_other :
    "zzz" ∉ listProviders [("openai", "sk")] ∧
      (useExternalLLM (fun _ => .error "down") [("openai", "sk")]
          "hi" (some "zzz") none).1 =
        [⟨"https://api.openai.com/v1/chat/completions", "hi"⟩] :=
  ⟨by decide, rfl⟩

/-- C4 (amended): naming an unconfigured provider does not produce an
unconfigured error from `use_external_llm`: the name is silently
ignored and the call falls back — to the first configured provider
(attempting that provider's HTTP call) when one exists, and to the
local-models message with no HTTP request only when none is
configured.  A direct `call_external_llm` on a provider with no stored
credential does return the explicit no-key message with no HTTP
request.  The configuration hash is passed immutably and only read, so
its state is unchanged by either call. -/
theorem useExternalLLM_unconfigured_name_behavior (transport : Transport)
    (h : KeysHash) (prompt p : String) (model : Option String)
    (hp : p = "" ∨ p ∉ listProviders h) :
    (listProviders h = [] →
      useExternalLLM transport h prompt (some p) model =
        ([], .ok (.str "Using local models (no external LLM configured)"))) ∧
      (∀ q rest, listProviders h = q :: rest →
        useExternalLLM transport h prompt (some p) model =
          callExternalLLM transport h q prompt model) ∧
      (getApiKey h p = "" →
        callExternalLLM transport h p prompt model =
          ([], .ok (.str ("No API key configured for " ++ p)))) := by
  have hnamed : ¬(p ≠ "" ∧ p ∈ listProviders h) := by
    rcases hp with hp | hp
    · exact fun hc => hc.1 hp
    · exact fun hc => hp hc.2
  have hstep : useExternalLLM transport h prompt (some p) model =
      useExternalLLMFallback transport h prompt model := by
    simp only [useExternalLLM]
    exact if_neg hnamed
  refine ⟨?_, ?_, ?_⟩
  · intro hnil
    rw [hstep]
    simp [useExternalLLMFallback, hnil]
  · intro q rest hcons
    rw [hstep]
    simp [useExternalLLMFallback, hcons]
  · intro hkey
    simp [callExternalLLM, hkey]

/-- Witness for the amended C4: both fallback branches and the direct
no-key result at concrete states. -/
theorem useExternalLLM_unconfigured_name_behavior_witness :
    (("zzz" = "" ∨ "zzz" ∉ listProviders [("openai", "sk")]) ∧
      ("zzz" = "" ∨ "zzz" ∉ listProviders ([] : KeysHash))) ∧
      (useExternalLLM (fun _ => .error "down") [("openai", "sk")]
          "hi" (some "zzz") none =
        callExternalLLM (fun _ => .error "down") [("openai", "sk")]
          "openai" "hi" none) ∧
      (useExternalLLM (fun _ => .error "down") ([] : KeysHash)
          "hi" (some "zzz") none =
        ([], .ok (.str "Using local models (no external LLM configured)"))) ∧
      (callExternalLLM (fun _ => .error "down") ([] : KeysHash) "zzz" "hi" none =
        ([], .ok (.str ("No API key configured for " ++ "zzz")))) := by
  have hp1 : "zzz" = "" ∨ "zzz" ∉ listProviders [("openai", "sk")] := by
    right
    decide
  have hp2 : "zzz" = "" ∨ "zzz" ∉ listProviders ([] : KeysHash) := by
    right
    decide
  refine ⟨⟨hp1, hp2⟩, ?_, ?_, ?_⟩
  · exact (useExternalLLM_unconfigured_name_behavior (fun _ => .error "down")
      [("openai", "sk")] "hi" "zzz" none hp1).2.1 "openai" [] rfl
  · exact (useExternalLLM_unconfigured_name_behavior (fun _ => .error "down")
      ([] : KeysHash) "hi" "zzz" none hp2).1 rfl
  · exact (useExternalLLM_unconfigured_name_behavior (fun _ => .error "down")
      ([] : KeysHash) "hi" "zzz" none hp2).2.2 rfl

/-- Effect of one `store_api_key` on the provider listing: an existing
name keeps its position (and the listing), a new name is appended. -/
theorem listProviders_storeApiKey (h : KeysHash) (p k : String) :
    listProviders (storeApiKey h p k) =
      if p ∈ listProviders h then listProviders h else listProviders h ++ [p] := by
  by_cases hp : h.any (fun x => x.1 = p)
  · have hmem : p ∈ listProviders h := by
      rcases List.any_eq_true.mp hp with ⟨x, hx, he⟩
      have he' : x.1 = p := by simpa using he
      exact he' ▸ List.mem_map_of_mem Prod.fst hx
    rw [if_pos hmem]
    unfold listProviders storeApiKey
    rw [if_pos hp, List.map_map]
    refine List.map_congr_left ?_
    intro x hx
    by_cases hxp : x.1 = p
    · simp [hxp]
    · simp [hxp]
  · have hmem : p ∉ listProviders h := by
      intro hc
      rcases List.mem_map.mp hc with ⟨x, hx, he⟩
      exact hp (List.any_eq_true.mpr ⟨x, hx, by simp [he]⟩)
    rw [if_neg hmem]
    unfold listProviders storeApiKey
    rw [if_neg hp]
    simp

/-- Provider listing after a whole registration history equals the
first-registration order of the names. -/
theorem listProviders_applyStores (ops : List (String × String)) :
    listProviders (applyStores ops) = regOrder ops := by
  suffices hgen : ∀ (ops : List (String × String)) (hsh : KeysHash),
      listProviders (ops.foldl (fun h op => storeApiKey h op.1 op.2) hsh) =
        ops.foldl (fun acc op => if op.1 ∈ acc then acc else acc ++ [op.1])
          (listProviders hsh) from hgen ops []
  intro ops
  induction ops with
  | nil =>
    intro hsh
    rfl
  | cons op rest ih =>
    intro hsh
    simp only [List.foldl_cons]
    rw [ih, listProviders_storeApiKey]

/-- Counterexample to C5's fallback conjunct as stated: with no
provider configured, `use_external_llm` does not fall back to the
designated local backend — even under a transport that would answer
any request (including the local `/api/generate` endpoint) with a
completion, it issues no HTTP request at all (empty request list) and
returns the canned informational string in place of a completion; the
local `OllamaClient` is never invoked by `use_external_llm`. -/
theorem useExternalLLM_no_local_backend_call :
    useExternalLLM (fun _ => .ok (Json.obj [("response", Json.str "hello")]))
        ([] : KeysHash) "hi" none none =
      ([], .ok (.str "Using local models (no external LLM configured)")) := rfl

/-- C5 (amended): with the provider argument omitted,
`use_external_llm` dispatches to the first entry of the provider
listing when at least one provider is configured; otherwise it does
not invoke any backend (the local `OllamaClient` included): it issues
no request and returns the literal informational string
`"Using local models (no external LLM configured)"` in place of a
completion.  The provider listing is in registration order (order of
first registration of each name, `HGETALL` field order of a
listpack-encoded Redis hash). -/
theorem useExternalLLM_default_dispatch_registration_order
    (transport : Transport) (h : KeysHash) (prompt : String)
    (model : Option String) :
    (listProviders h = [] →
      useExternalLLM transport h prompt none model =
        ([], .ok (.str "Using local models (no external LLM configured)"))) ∧
      (∀ q rest, listProviders h = q :: rest →
        useExternalLLM transport h prompt none model =
          callExternalLLM transport h q prompt model) ∧
      (∀ ops : List (String × String),
        listProviders (applyStores ops) = regOrder ops) := by
  refine ⟨?_, ?_, fun ops => listProviders_applyStores ops⟩
  · intro hnil
    simp [useExternalLLM, useExternalLLMFallback, hnil]
  · intro q rest hcons
    simp [useExternalLLM, useExternalLLMFallback, hcons]

/-- Witness for C5 at concrete states: dispatch to the first
configured provider, local fallback, and a re-registration keeping
first-registration order. -/
theorem useExternalLLM_default_dispatch_registration_order_witness :
    (useExternalLLM (fun _ => .error "down") [("a", "k1"), ("b", "k2")]
        "hi" none none =
      callExternalLLM (fun _ => .error "down") [("a", "k1"), ("b", "k2")]
        "a" "hi" none) ∧
      (useExternalLLM (fun _ => .error "down") ([] : KeysHash) "hi" none none =
        ([], .ok (.str "Using local models (no external LLM configured)"))) ∧
      (listProviders (applyStores [("a", "k1"), ("b", "k2"), ("a", "k3")]) =
        ["a", "b"]) := by
  refine ⟨?_, ?_, ?_⟩
  · exact (useExternalLLM_default_dispatch_registration_order
      (fun _ => .error "down") [("a", "k1"), ("b", "k2")] "hi" none).2.1
      "a" ["b"] rfl
  · exact (useExternalLLM_default_dispatch_registration_order
      (fun _ => .error "down") ([] : KeysHash) "hi" none).1 rfl
  · rw [(useExternalLLM_default_dispatch_registration_order
      (fun _ => .error "down") ([] : KeysHash) "hi" none).2.2
      [("a", "k1"), ("b", "k2"), ("a", "k3")]]
    decide

/-- Counterexample to C9 as stated: the local Ollama adapter
(`response.json().get("response", "")`) silently coerces a response
missing the `response` field to the empty string. -/
theorem ollama_missing_field_coerced_to_empty :
    (ollamaGenerate (fun _ => .ok (Json.obj []))
        "http://localhost:11434" "devstral:latest" "hi").2 = .ok (.str "") := rfl

/-- C9 (amended): for the remote adapters, a transport failure and a
malformed response surface as distinct error kinds (a transport
exception versus a `KeyError`), but the local Ollama adapter coerces a
response lacking the `response` field to the empty string instead of
raising. -/
theorem transport_and_parse_errors_distinct_but_ollama_coerces
    (transport : Transport) (h : KeysHash) (prompt baseUrl mdl : String)
    (model : Option String) (e : String)
    (hk : getApiKey h "openai" ≠ "") :
    (transport ⟨"https://api.openai.com/v1/chat/completions", prompt⟩ = .error e →
      (callExternalLLM transport h "openai" prompt model).2 =
        .error (.transport e)) ∧
      (∀ fs, transport ⟨"https://api.openai.com/v1/chat/completions", prompt⟩ =
          .ok (.obj fs) → fs.lookup "choices" = none →
        (callExternalLLM transport h "openai" prompt model).2 =
          .error (.keyError "choices")) ∧
      (PyErr.transport e ≠ PyErr.keyError "choices") ∧
      (∀ fs, transport ⟨baseUrl ++ "/api/generate",
          prompt ++ " [model " ++ mdl ++ "]"⟩ = .ok (.obj fs) →
        fs.lookup "response" = none →
        (ollamaGenerate transport baseUrl mdl prompt).2 = .ok (.str "")) := by
  refine ⟨?_, ?_, by simp, ?_⟩
  · intro he
    simp [callExternalLLM, hk, he]
  · intro fs hok hnone
    simp [callExternalLLM, hk, hok, openaiExtract, jField, hnone]
    rfl
  · intro fs hok hnone
    simp [ollamaGenerate, hok, hnone]

/-- Witness for the amended C9 at concrete transports. -/
theorem transport_and_parse_errors_distinct_witness :
    (getApiKey [("openai", "sk")] "openai" ≠ "" ∧
      PyErr.transport "down" ≠ PyErr.keyError "choices") ∧
      ((callExternalLLM (fun _ => .error "down") [("openai", "sk")]
          "openai" "hi" none).2 = .error (.transport "down")) ∧
      ((callExternalLLM (fun _ => .ok (Json.obj [])) [("openai", "sk")]
          "openai" "hi" none).2 = .error (.keyError "choices")) ∧
      ((ollamaGenerate (fun _ => .ok (Json.obj []))
          "http://localhost:11434" "devstral:latest" "hi").2 = .ok (.str "")) := by
  have hk : getApiKey [("openai", "sk")] "openai" ≠ "" := by decide
  refine ⟨⟨hk, ?_⟩, ?_, ?_, ?_⟩
  · exact (transport_and_parse_errors_distinct_but_ollama_coerces
      (fun _ => .error "down") [("openai", "sk")] "hi" "b" "m" none "down"
      hk).2.2.1
  · exact (transport_and_parse_errors_distinct_but_ollama_coerces
      (fun _ => .error "down") [("openai", "sk")] "hi" "b" "m" none "down"
      hk).1 rfl
  · exact (transport_and_parse_errors_distinct_but_ollama_coerces
      (fun _ => .ok (Json.obj [])) [("openai", "sk")] "hi" "b" "m" none "down"
      hk).2.1 [] rfl rfl
  · exact (transport_and_parse_errors_distinct_but_ollama_coerces
      (fun _ => .ok (Json.obj [])) [("openai", "sk")] "hi"
      "http://localhost:11434" "devstral:latest" none "down" hk).2.2.2 [] rfl rfl

/-! ### Pipeline theorems (claim C8) -/

/-- C8: a provider failure at any stage moves the run to FAILED
immediately with every previously appended artifact retained and
returned; in particular a CODE-stage failure ends the run FAILED with
artifacts equal to the TESTS artifact alone and the REVIEW stage's
provider call is never attempted.  (The pipeline composer is modelled
from the spec, as `src/` contains only the three per-stage agent
calls.) -/
theorem pipeline_failure_retains_artifacts (call : Stage → Except String String) :
    (∀ e, call Stage.tests = .error e →
      runPipeline call = (⟨Stage.failed, []⟩, [Stage.tests])) ∧
      (∀ t e, call Stage.tests = .ok t → call Stage.code = .error e →
        runPipeline call = (⟨Stage.failed, [⟨Stage.tests, t⟩]⟩,
          [Stage.tests, Stage.code]) ∧
        Stage.review ∉ (runPipeline call).2) ∧
      (∀ t c e, call Stage.tests = .ok t → call Stage.code = .ok c →
        call Stage.review = .error e →
        runPipeline call =
          (⟨Stage.failed, [⟨Stage.tests, t⟩, ⟨Stage.code, c⟩]⟩,
            [Stage.tests, Stage.code, Stage.review])) := by
  refine ⟨?_, ?_, ?_⟩
  · intro e he
    simp [runPipeline, he]
  · intro t e ht he
    simp [runPipeline, ht, he]
  · intro t c e ht hc he
    simp [runPipeline, ht, hc, he]

/-- Witness for C8: a concrete run whose CODE-stage call fails. -/
theorem pipeline_failure_retains_artifacts_witness :
    ((fun s => match s with
        | Stage.tests => Except.ok "T"
        | Stage.code => Except.error "boom"
        | _ => Except.ok "x") Stage.tests = Except.ok "T" ∧
      (fun s => match s with
        | Stage.tests => Except.ok "T"
        | Stage.code => Except.error "boom"
        | _ => Except.ok "x") Stage.code = Except.error "boom") ∧
      runPipeline (fun s => match s with
        | Stage.tests => Except.ok "T"
        | Stage.code => Except.error "boom"
        | _ => Except.ok "x") =
        (⟨Stage.failed, [⟨Stage.tests, "T"⟩]⟩, [Stage.tests, Stage.code]) ∧
      Stage.review ∉ (runPipeline (fun s => match s with
        | Stage.tests => Except.ok "T"
        | Stage.code => Except.error "boom"
        | _ => Except.ok "x")).2 := by
  have happ := (pipeline_failure_retains_artifacts (fun s => match s with
    | Stage.tests => Except.ok "T"
    | Stage.code => Except.error "boom"
    | _ => Except.ok "x")).2.1 "T" "boom" rfl rfl
  exact ⟨⟨rfl, rfl⟩, happ.1, happ.2⟩

end Debo
